import Mathlib

/-!
Verification development for the style-file decoder (src/src/styles.cpp,
src/src/io.h).  The C++ code is shallowly embedded: the byte buffer is a
total function `Nat → Nat` together with an explicit size (a raw memory
view: reading past `size` corresponds to the C++ out-of-bounds access,
which the embedding models as returning byte 0), the `Reader` struct is
state passed explicitly, `assert` failures abort the decode and are
modelled as errors, and the silent early `return` on a bad magic value is
modelled as a `formatError` per the spec taxonomy.  Multi-byte reads are
little-endian, as on the x86 targets the program is compiled for.
-/

/-- RGBA color, one byte per channel (struct Color in styles.cpp). -/
structure Color where
  r : Nat
  g : Nat
  b : Nat
  a : Nat
deriving DecidableEq, Repr

/-- The zero value a value-initialized C++ Color has. -/
def Color.zero : Color := ⟨0, 0, 0, 0⟩

/-- Error taxonomy of the spec, used to label the distinct failure paths of
the C++ code: the early return on a bad magic is formatError, a failed
bounds assert in Reader::read / read_many is truncatedInput, a failed
chunk-size assert in a handler is sizeMismatch, and the failing TODO assert
on a PSXT chunk is todoPsx. -/
inductive StyleError where
  | formatError
  | truncatedInput
  | sizeMismatch
  | todoPsx
deriving DecidableEq, Repr

/-- struct Reader of io.h: a byte buffer (total function modelling the raw
data pointer), its size, and a cursor. -/
structure Reader where
  data : Nat → Nat
  size : Nat
  cursor : Nat

/-- Build the buffer function from a concrete byte list (bytes past the
end read as 0, standing in for the C++ out-of-bounds value). -/
def bufOfList (l : List Nat) : Nat → Nat :=
  fun i => l.getD i 0

/-- A reader over a concrete byte list, cursor at 0. -/
def Reader.ofList (l : List Nat) : Reader :=
  ⟨bufOfList l, l.length, 0⟩

/-- Reader::done - all bytes consumed. -/
def Reader.done (r : Reader) : Bool :=
  r.size ≤ r.cursor

/-- Reader::skip - advances the cursor WITHOUT any bounds check, exactly as
in io.h lines 52-54 (the check the spec mandates is absent in the code). -/
def Reader.skip (r : Reader) (bytes : Nat) : Reader :=
  { r with cursor := r.cursor + bytes }

/-- Little-endian 16-bit word at byte position p of a buffer. -/
def u16At (d : Nat → Nat) (p : Nat) : Nat :=
  d p + 256 * d (p + 1)

/-- Little-endian 32-bit word at byte position p of a buffer. -/
def u32At (d : Nat → Nat) (p : Nat) : Nat :=
  d p + 256 * d (p + 1) + 65536 * d (p + 2) + 16777216 * d (p + 3)

/-- Reader::read<uint8_t>: bounds-asserted single byte read. -/
def Reader.readU8 (r : Reader) : Option (Nat × Reader) :=
  if r.cursor + 1 ≤ r.size then
    some (r.data r.cursor, { r with cursor := r.cursor + 1 })
  else none

/-- Reader::read<uint16_t>: bounds-asserted little-endian 16-bit read. -/
def Reader.readU16 (r : Reader) : Option (Nat × Reader) :=
  if r.cursor + 2 ≤ r.size then
    some (u16At r.data r.cursor, { r with cursor := r.cursor + 2 })
  else none

/-- Reader::read<uint32_t>: bounds-asserted little-endian 32-bit read. -/
def Reader.readU32 (r : Reader) : Option (Nat × Reader) :=
  if r.cursor + 4 ≤ r.size then
    some (u32At r.data r.cursor, { r with cursor := r.cursor + 4 })
  else none

/-- Reader::read_many<uint8_t>(dest, n) collected into a list: a
bounds-asserted copy of n bytes. -/
def readByteList (r : Reader) (n : Nat) : Option (List Nat × Reader) :=
  if r.cursor + n ≤ r.size then
    some ((List.range n).map (fun i => r.data (r.cursor + i)),
          { r with cursor := r.cursor + n })
  else none

/-- Reader::read_many<uint16_t>(dest, n) collected into a list of n
little-endian 16-bit words (a memcpy of 2n bytes). -/
def readU16List (r : Reader) (n : Nat) : Option (List Nat × Reader) :=
  if r.cursor + 2 * n ≤ r.size then
    some ((List.range n).map (fun i => u16At r.data (r.cursor + 2 * i)),
          { r with cursor := r.cursor + 2 * n })
  else none

/-- Physical palette collection as a total function from palette index and
color index to Color (std::vector<PhysicalPalette>; slots never written by
the interleave loop keep the value-initialized zero color). -/
abbrev PalFun := Nat → Nat → Color

/-- A pixel buffer (std::vector<Color>) as a total function. -/
abbrev PixBuf := Nat → Color

/-- Write of one palette slot: result[idx].colors[color] = v. -/
def setPal (f : PalFun) (i c : Nat) (v : Color) : PalFun :=
  fun i' c' => if i' = i ∧ c' = c then v else f i' c'

/-- The convert lambda of read_physical_palettes (styles.cpp lines 57-65):
bits 16-23 red, 8-15 green, 0-7 blue, alpha forced fully opaque. -/
def convertColor (color : Nat) : Color :=
  ⟨color / 65536 % 256, color / 256 % 256, color % 256, 255⟩

/-- Innermost interleave loop (for palette in [q, q+fuel), styles.cpp line
75-78): each iteration reads the next dword and stores it at palette slot
page*64+palette, color index color. -/
def ppalInner (page color : Nat) : Nat → Nat → PalFun → Reader → Option (PalFun × Reader)
  | _, 0, f, r => some (f, r)
  | q, fuel + 1, f, r =>
    match r.readU32 with
    | none => none
    | some (w, r1) =>
        ppalInner page color (q + 1) fuel (setPal f (page * 64 + q) color (convertColor w)) r1

/-- Middle interleave loop (for color in [color, color+fuel), styles.cpp
line 74): runs the 64-palette inner loop per color index. -/
def ppalColors (page : Nat) : Nat → Nat → PalFun → Reader → Option (PalFun × Reader)
  | _, 0, f, r => some (f, r)
  | color, fuel + 1, f, r =>
    match ppalInner page color 0 64 f r with
    | none => none
    | some (f1, r1) => ppalColors page (color + 1) fuel f1 r1

/-- Outer interleave loop (for page in [page, page+fuel), styles.cpp line
73): runs the 256-color middle loop per page. -/
def ppalPages : Nat → Nat → PalFun → Reader → Option (PalFun × Reader)
  | _, 0, f, r => some (f, r)
  | page, fuel + 1, f, r =>
    match ppalColors page 0 256 f r with
    | none => none
    | some (f1, r1) => ppalPages (page + 1) fuel f1 r1

/-- read_physical_palettes (styles.cpp lines 42-83): asserts the chunk size
is a multiple of 1024 (sizeof PhysicalPalette), then reads whole pages of
64 palettes in interleaved loop order (page, color index, palette-in-page).
Returns the palette function together with the palette count. -/
def read_physical_palettes (r : Reader) (chunk_size : Nat) :
    Except StyleError ((PalFun × Nat) × Reader) :=
  if chunk_size % 1024 = 0 then
    match ppalPages 0 (chunk_size / 1024 / 64) (fun _ _ => Color.zero) r with
    | none => .error .truncatedInput
    | some (f, r1) => .ok ((f, chunk_size / 1024), r1)
  else .error .sizeMismatch

/-- read_virtual_palette_table (styles.cpp lines 20-26): asserts
chunk_size == 32768 (sizeof VirtualPaletteTable) and memcpy's 16384 u16
entries; entry v is the little-endian word at byte offset 2v. -/
def read_virtual_palette_table (r : Reader) (chunk_size : Nat) :
    Except StyleError ((Nat → Nat) × Reader) :=
  if chunk_size = 32768 then
    if r.cursor + 32768 ≤ r.size then
      .ok (fun v => if v < 16384 then u16At r.data (r.cursor + 2 * v) else 0,
           { r with cursor := r.cursor + 32768 })
    else .error .truncatedInput
  else .error .sizeMismatch

/-- Generic forward for-loop writing buf[key i] := val i for i in
[start, start+count), the shape of the pixel-filling loops. -/
def writeLoop (key : Nat → Nat) (val : Nat → α) : Nat → Nat → (Nat → α) → (Nat → α)
  | _, 0, buf => buf
  | i, n + 1, buf => writeLoop key val (i + 1) n (Function.update buf (key i) (val i))

/-- Nested raster loop: for y in [y0, y0+n), for x in [0, w):
buf[x + y*w] := val y x. -/
def rowsLoop (w : Nat) (val : Nat → Nat → α) : Nat → Nat → (Nat → α) → (Nat → α)
  | _, 0, buf => buf
  | y, n + 1, buf => rowsLoop w val (y + 1) n (writeLoop (fun x => x + y * w) (val y) 0 w buf)

/-- struct Tile: a 64x64 grid of palette-index bytes, colors indexed by
x + y*64. -/
structure Tile where
  colors : Nat → Nat

/-- One tile cut from the page buffer (inner loops of read_tiles,
styles.cpp lines 102-112): row = i/4, col = i%4, and
colors[x + y*64] = data[x + col*64 + (y + row*64)*256], where data is the
raw (unchecked) pointer at the cursor c0. -/
def mkTile (data : Nat → Nat) (c0 i : Nat) : Tile :=
  ⟨rowsLoop 64
    (fun y x => data (c0 + (x + (i % 4) * 64 + (y + (i / 4) * 64) * 256)))
    0 64 (fun _ => 0)⟩

/-- The tile list, ordered by tile index. -/
def tilesList (data : Nat → Nat) (c0 : Nat) : Nat → Nat → List Tile
  | _, 0 => []
  | i, n + 1 => mkTile data c0 i :: tilesList data c0 (i + 1) n

/-- read_tiles (styles.cpp lines 93-114): grabs the raw page pointer at the
cursor, advances past the chunk with the UNCHECKED skip, and cuts
chunk_size/4096 tiles out of the raw view.  No bounds check exists
anywhere on this path, so it never fails. -/
def read_tiles (r : Reader) (chunk_size : Nat) : List Tile × Reader :=
  (tilesList r.data r.cursor 0 (chunk_size / 4096), r.skip chunk_size)

/-- A byte blob copied out of the input (std::vector<uint8_t>): contents as
a total function plus the stored size; indexing past the size models the
C++ out-of-bounds access as 0. -/
structure ByteBlob where
  data : Nat → Nat
  size : Nat

/-- Reader::read_many<uint8_t> of a whole chunk into a fresh vector, as
done by read_sprite_store and read_delta_store. -/
def readBlob (r : Reader) (n : Nat) : Except StyleError (ByteBlob × Reader) :=
  if r.cursor + n ≤ r.size then
    .ok (⟨fun j => if j < n then r.data (r.cursor + j) else 0, n⟩,
         { r with cursor := r.cursor + n })
  else .error .truncatedInput

/-- read_sprite_store (styles.cpp lines 120-124). -/
def read_sprite_store (r : Reader) (chunk_size : Nat) : Except StyleError (ByteBlob × Reader) :=
  readBlob r chunk_size

/-- read_delta_store (styles.cpp lines 287-291). -/
def read_delta_store (r : Reader) (chunk_size : Nat) : Except StyleError (ByteBlob × Reader) :=
  readBlob r chunk_size

/-- struct Sprite: store offset, width and height (pad ignored). -/
structure Sprite where
  offset : Nat
  width : Nat
  height : Nat
deriving DecidableEq, Repr

/-- One 8-byte SpriteTransfer record {offset u32 LE, width u8, height u8,
pad u16 ignored} built from its raw bytes. -/
def spriteOfBytes (bs : List Nat) : Sprite :=
  ⟨bs.getD 0 0 + 256 * bs.getD 1 0 + 65536 * bs.getD 2 0 + 16777216 * bs.getD 3 0,
   bs.getD 4 0, bs.getD 5 0⟩

/-- The record loop of read_sprites: n sequential 8-byte SpriteTransfer
records. -/
def spritesLoop : Nat → Reader → Option (List Sprite × Reader)
  | 0, r => some ([], r)
  | n + 1, r =>
    match readByteList r 8 with
    | none => none
    | some (bs, r1) =>
      match spritesLoop n r1 with
      | none => none
      | some (ss, r2) => some (spriteOfBytes bs :: ss, r2)

/-- read_sprites (styles.cpp lines 134-158): asserts chunk_size % 8 == 0
and reads chunk_size/8 sprite records. -/
def read_sprites (r : Reader) (chunk_size : Nat) : Except StyleError (List Sprite × Reader) :=
  if chunk_size % 8 = 0 then
    match spritesLoop (chunk_size / 8) r with
    | none => .error .truncatedInput
    | some p => .ok p
  else .error .sizeMismatch

/-- An (offset, count) allocation pair: struct SpriteBase, PaletteBase and
FontBase of styles.cpp all have this shape (two u16 fields). -/
structure AllocBase where
  offset : Nat
  count : Nat
deriving DecidableEq, Repr

/-- The next_base closure of read_sprite_bases / read_palette_bases /
read_font_bases: each category gets the running offset paired with its
count, and the offset accumulates in a uint16_t, hence modulo 65536. -/
def basesFrom : Nat → List Nat → List AllocBase
  | _, [] => []
  | offset, c :: rest => ⟨offset, c⟩ :: basesFrom ((offset + c) % 65536) rest

/-- struct SpriteBases: the 6 sprite allocation categories in fixed order. -/
structure SpriteBases where
  car : AllocBase
  ped : AllocBase
  code : AllocBase
  map : AllocBase
  user : AllocBase
  font : AllocBase
deriving DecidableEq, Repr

/-- struct PaletteBases: the 8 palette allocation categories in fixed
order. -/
structure PaletteBases where
  tile : AllocBase
  sprite : AllocBase
  car : AllocBase
  ped : AllocBase
  code : AllocBase
  map : AllocBase
  user : AllocBase
  font : AllocBase
deriving DecidableEq, Repr

/-- read_sprite_bases (styles.cpp lines 174-208): asserts chunk_size == 12,
reads 6 u16 counts in fixed order and converts them to cumulative
(offset, count) pairs via the uint16_t accumulator. -/
def read_sprite_bases (r : Reader) (chunk_size : Nat) : Except StyleError (SpriteBases × Reader) :=
  if chunk_size = 12 then
    match readU16List r 6 with
    | none => .error .truncatedInput
    | some (cs, r1) =>
      .ok (⟨(basesFrom 0 cs).getD 0 ⟨0, 0⟩, (basesFrom 0 cs).getD 1 ⟨0, 0⟩,
            (basesFrom 0 cs).getD 2 ⟨0, 0⟩, (basesFrom 0 cs).getD 3 ⟨0, 0⟩,
            (basesFrom 0 cs).getD 4 ⟨0, 0⟩, (basesFrom 0 cs).getD 5 ⟨0, 0⟩⟩, r1)
  else .error .sizeMismatch

/-- read_palette_bases (styles.cpp lines 226-266): asserts
chunk_size == 16, reads 8 u16 counts in fixed order and converts them to
cumulative (offset, count) pairs via the uint16_t accumulator. -/
def read_palette_bases (r : Reader) (chunk_size : Nat) : Except StyleError (PaletteBases × Reader) :=
  if chunk_size = 16 then
    match readU16List r 8 with
    | none => .error .truncatedInput
    | some (cs, r1) =>
      .ok (⟨(basesFrom 0 cs).getD 0 ⟨0, 0⟩, (basesFrom 0 cs).getD 1 ⟨0, 0⟩,
            (basesFrom 0 cs).getD 2 ⟨0, 0⟩, (basesFrom 0 cs).getD 3 ⟨0, 0⟩,
            (basesFrom 0 cs).getD 4 ⟨0, 0⟩, (basesFrom 0 cs).getD 5 ⟨0, 0⟩,
            (basesFrom 0 cs).getD 6 ⟨0, 0⟩, (basesFrom 0 cs).getD 7 ⟨0, 0⟩⟩, r1)
  else .error .sizeMismatch

/-- read_font_bases (styles.cpp lines 332-350): a u16 glyph-count count,
then that many u16 counts, converted to cumulative (offset, count) pairs.
The declared chunk size is never consulted. -/
def read_font_bases (r : Reader) (_chunk_size : Nat) : Except StyleError (List AllocBase × Reader) :=
  match r.readU16 with
  | none => .error .truncatedInput
  | some (count, r1) =>
    match readU16List r1 count with
    | none => .error .truncatedInput
    | some (cs, r2) => .ok (basesFrom 0 cs, r2)

/-- The bounded sentinel loop of read_recyclable_cars: up to fuel model
bytes, stopping (inclusive) at the 255 sentinel. -/
def recyLoop : Nat → Reader → Option (List Nat × Reader)
  | 0, r => some ([], r)
  | n + 1, r =>
    match r.readU8 with
    | none => none
    | some (v, r1) =>
      if v = 255 then some ([], r1)
      else
        match recyLoop n r1 with
        | none => none
        | some (l, r2) => some (v :: l, r2)

/-- read_recyclable_cars (styles.cpp lines 270-283): asserts
chunk_size <= 64, then reads up to 64 car-model bytes stopping early at
the 255 sentinel.  NOTE the loop is bounded by the constant 64, not by
chunk_size, so the bytes it consumes need not equal chunk_size. -/
def read_recyclable_cars (r : Reader) (chunk_size : Nat) : Except StyleError (List Nat × Reader) :=
  if chunk_size ≤ 64 then
    match recyLoop 64 r with
    | none => .error .truncatedInput
    | some p => .ok p
  else .error .sizeMismatch

/-- struct DeltaSet: target sprite number plus the byte sizes of each
derived frame in the set. -/
structure DeltaSet where
  sprite : Nat
  sizes : List Nat
deriving DecidableEq, Repr

/-- The record loop of read_deltas: while the running byte total is below
chunk_size, read {sprite u16, count u8, pad u8 skipped unchecked, count
u16 sizes} and account 4 + 2*count bytes.  Fuel decreases every
iteration; since each iteration accounts at least 4 bytes, fuel
chunk_size+1 can never run out. -/
def deltasLoop : Nat → Nat → Nat → Reader → Option (List DeltaSet × Reader)
  | 0, _, _, _ => none
  | fuel + 1, bytes, chunk_size, r =>
    if bytes < chunk_size then
      match r.readU16 with
      | none => none
      | some (sprite, r1) =>
        match r1.readU8 with
        | none => none
        | some (count, r2) =>
          match readU16List (r2.skip 1) count with
          | none => none
          | some (sizes, r4) =>
            match deltasLoop fuel (bytes + 4 + 2 * count) chunk_size r4 with
            | none => none
            | some (sets, r5) => some (⟨sprite, sizes⟩ :: sets, r5)
    else some ([], r)

/-- read_deltas (styles.cpp lines 301-323). -/
def read_deltas (r : Reader) (chunk_size : Nat) : Except StyleError (List DeltaSet × Reader) :=
  match deltasLoop (chunk_size + 1) 0 chunk_size r with
  | none => .error .truncatedInput
  | some p => .ok p

/-- struct MapObject: {model u8, sprites u8}. -/
structure MapObject where
  model : Nat
  sprites : Nat
deriving DecidableEq, Repr

/-- The chunk_size/2 two-byte records memcpy'd by read_map_objects. -/
def mapObjectsOf (d : Nat → Nat) (c0 : Nat) : Nat → Nat → List MapObject
  | _, 0 => []
  | i, n + 1 => ⟨d (c0 + 2 * i), d (c0 + 2 * i + 1)⟩ :: mapObjectsOf d c0 (i + 1) n

/-- read_map_objects (styles.cpp lines 359-366): asserts an even
chunk_size and memcpy's chunk_size/2 {model, sprites} byte pairs. -/
def read_map_objects (r : Reader) (chunk_size : Nat) : Except StyleError (List MapObject × Reader) :=
  if chunk_size % 2 = 0 then
    if r.cursor + 2 * (chunk_size / 2) ≤ r.size then
      .ok (mapObjectsOf r.data r.cursor 0 (chunk_size / 2),
           { r with cursor := r.cursor + 2 * (chunk_size / 2) })
    else .error .truncatedInput
  else .error .sizeMismatch

/-- Inner sentinel loop of read_surface_tiles: while bytes < chunk_size
read a u16, account 2 bytes, stop (inclusive) on the 0 sentinel, collect
the rest.  Returns the list, the byte total and the reader.  Each
iteration accounts 2 bytes so fuel chunk_size+1 can never run out. -/
def surfInner : Nat → Nat → Nat → Reader → Option (List Nat × (Nat × Reader))
  | 0, bytes, _, r => some ([], (bytes, r))
  | fuel + 1, bytes, chunk_size, r =>
    if bytes < chunk_size then
      match r.readU16 with
      | none => none
      | some (v, r1) =>
        if v = 0 then some ([], (bytes + 2, r1))
        else
          match surfInner fuel (bytes + 2) chunk_size r1 with
          | none => none
          | some (l, br) => some (v :: l, br)
    else some ([], (bytes, r))

/-- Outer category loop of read_surface_tiles: for type < 9 while
bytes < chunk_size, read one sentinel-terminated list and store it at
index type of the result vector. -/
def surfOuter (chunk_size : Nat) : Nat → Nat → List (List Nat) → Nat → Reader → Option (List (List Nat) × Reader)
  | 0, _, result, _, r => some (result, r)
  | fuel + 1, type, result, bytes, r =>
    if bytes < chunk_size then
      match surfInner (chunk_size + 1) bytes chunk_size r with
      | none => none
      | some (tiles, (bytes1, r1)) =>
        surfOuter chunk_size fuel (type + 1) (result.set type tiles) bytes1 r1
    else some (result, r)

/-- read_surface_tiles (styles.cpp lines 385-407): nine zero-terminated
u16 tile lists, one per fixed surface type, stopping at chunk exhaustion;
categories never reached keep the default-constructed empty list. -/
def read_surface_tiles (r : Reader) (chunk_size : Nat) : Except StyleError (List (List Nat) × Reader) :=
  match surfOuter chunk_size 9 0 (List.replicate 9 []) 0 r with
  | none => .error .truncatedInput
  | some p => .ok p

/-- struct Car (styles.cpp lines 414-432).  The four signed int8 offsets
and the flag bytes are kept as the raw bytes read from the file. -/
structure Car where
  model : Nat
  sprite : Nat
  width : Nat
  height : Nat
  num_remaps : Nat
  passengers : Nat
  wreck : Nat
  rating : Nat
  front_wheel_offset : Nat
  rear_wheel_offset : Nat
  front_window_offset : Nat
  rear_window_offset : Nat
  info_flags : Nat
  info_flags2 : Nat
  remap : List Nat
  num_doors : Nat
  doors : List (Nat × Nat)
deriving DecidableEq, Repr

/-- The record loop of read_cars: while bytes < chunk_size, read the 14
fixed header bytes, num_remaps remap bytes, a door count and that many
2-byte door records, accounting 15 + num_remaps + 2*num_doors bytes.
Each iteration accounts at least 15 bytes so fuel chunk_size+1 can never
run out. -/
def carsLoop : Nat → Nat → Nat → Reader → Option (List Car × Reader)
  | 0, _, _, _ => none
  | fuel + 1, bytes, chunk_size, r =>
    if bytes < chunk_size then
      match readByteList r 14 with
      | none => none
      | some (hs, r1) =>
        match readByteList r1 (hs.getD 4 0) with
        | none => none
        | some (remap, r2) =>
          match r2.readU8 with
          | none => none
          | some (num_doors, r3) =>
            match readByteList r3 (2 * num_doors) with
            | none => none
            | some (ds, r4) =>
              match carsLoop fuel (bytes + 15 + hs.getD 4 0 + 2 * num_doors) chunk_size r4 with
              | none => none
              | some (cars, r5) =>
                some (⟨hs.getD 0 0, hs.getD 1 0, hs.getD 2 0, hs.getD 3 0, hs.getD 4 0,
                       hs.getD 5 0, hs.getD 6 0, hs.getD 7 0, hs.getD 8 0, hs.getD 9 0,
                       hs.getD 10 0, hs.getD 11 0, hs.getD 12 0, hs.getD 13 0, remap,
                       num_doors,
                       (List.range num_doors).map (fun i => (ds.getD (2 * i) 0, ds.getD (2 * i + 1) 0))⟩
                      :: cars, r5)
    else some ([], r)

/-- read_cars (styles.cpp lines 436-471). -/
def read_cars (r : Reader) (chunk_size : Nat) : Except StyleError (List Car × Reader) :=
  match carsLoop (chunk_size + 1) 0 chunk_size r with
  | none => .error .truncatedInput
  | some p => .ok p

/-- Chunk tag PALX as its 4 ASCII bytes. -/
def tagPALX : List Nat := [80, 65, 76, 88]

/-- Chunk tag PPAL. -/
def tagPPAL : List Nat := [80, 80, 65, 76]

/-- Chunk tag PALB. -/
def tagPALB : List Nat := [80, 65, 76, 66]

/-- Chunk tag SPRB. -/
def tagSPRB : List Nat := [83, 80, 82, 66]

/-- Chunk tag TILE. -/
def tagTILE : List Nat := [84, 73, 76, 69]

/-- Chunk tag SPRG. -/
def tagSPRG : List Nat := [83, 80, 82, 71]

/-- Chunk tag SPRX. -/
def tagSPRX : List Nat := [83, 80, 82, 88]

/-- Chunk tag DELS. -/
def tagDELS : List Nat := [68, 69, 76, 83]

/-- Chunk tag DELX. -/
def tagDELX : List Nat := [68, 69, 76, 88]

/-- Chunk tag FONB. -/
def tagFONB : List Nat := [70, 79, 78, 66]

/-- Chunk tag CARI. -/
def tagCARI : List Nat := [67, 65, 82, 73]

/-- Chunk tag OBJI. -/
def tagOBJI : List Nat := [79, 66, 74, 73]

/-- Chunk tag PSXT (PSX tiles, unimplemented in the source). -/
def tagPSXT : List Nat := [80, 83, 88, 84]

/-- Chunk tag RECY. -/
def tagRECY : List Nat := [82, 69, 67, 89]

/-- Chunk tag SPEC. -/
def tagSPEC : List Nat := [83, 80, 69, 67]

/-- The GBST magic constant. -/
def magicGBST : List Nat := [71, 66, 83, 84]

/-- The local decode state of read_styles (styles.cpp lines 504-517).  The
uninitialized POD locals (vtable, palette_bases, sprite_bases) are
modelled as all zero. -/
structure Model where
  vtable : Nat → Nat
  palettes : PalFun
  palettesCount : Nat
  palette_bases : PaletteBases
  sprite_bases : SpriteBases
  sprite_store : ByteBlob
  sprites : List Sprite
  delta_store : ByteBlob
  deltas : List DeltaSet
  tiles : List Tile
  font_bases : List AllocBase
  map_objects : List MapObject
  surfaces : List (List Nat)
  recyclable_cars : List Nat
  cars : List Car

/-- The initial decode state. -/
def Model.init : Model :=
  ⟨fun _ => 0, fun _ _ => Color.zero, 0,
   ⟨⟨0, 0⟩, ⟨0, 0⟩, ⟨0, 0⟩, ⟨0, 0⟩, ⟨0, 0⟩, ⟨0, 0⟩, ⟨0, 0⟩, ⟨0, 0⟩⟩,
   ⟨⟨0, 0⟩, ⟨0, 0⟩, ⟨0, 0⟩, ⟨0, 0⟩, ⟨0, 0⟩, ⟨0, 0⟩⟩,
   ⟨fun _ => 0, 0⟩, [], ⟨fun _ => 0, 0⟩, [], [], [], [], [], [], []⟩

/-- One iteration body of the chunk loop (styles.cpp lines 519-589): read
the ChunkHeader (4-byte tag, u32 length) and dispatch on the tag.  The
default case mirrors the source exactly: it does NOT advance the cursor
over the unknown chunk payload (the desynchronization bug the spec calls
out).  The PSXT case hits assert(false) before its skip. -/
def dispatchChunk (m : Model) (r : Reader) : Except StyleError (Model × Reader) :=
  match readByteList r 4 with
  | none => .error .truncatedInput
  | some (tag, r1) =>
    match r1.readU32 with
    | none => .error .truncatedInput
    | some (chunk_size, r2) =>
      if tag = tagPALX then
        match read_virtual_palette_table r2 chunk_size with
        | .error e => .error e
        | .ok (v, r3) => .ok ({ m with vtable := v }, r3)
      else if tag = tagPPAL then
        match read_physical_palettes r2 chunk_size with
        | .error e => .error e
        | .ok ((f, n), r3) => .ok ({ m with palettes := f, palettesCount := n }, r3)
      else if tag = tagPALB then
        match read_palette_bases r2 chunk_size with
        | .error e => .error e
        | .ok (v, r3) => .ok ({ m with palette_bases := v }, r3)
      else if tag = tagSPRB then
        match read_sprite_bases r2 chunk_size with
        | .error e => .error e
        | .ok (v, r3) => .ok ({ m with sprite_bases := v }, r3)
      else if tag = tagTILE then
        match read_tiles r2 chunk_size with
        | (v, r3) => .ok ({ m with tiles := v }, r3)
      else if tag = tagSPRG then
        match read_sprite_store r2 chunk_size with
        | .error e => .error e
        | .ok (v, r3) => .ok ({ m with sprite_store := v }, r3)
      else if tag = tagSPRX then
        match read_sprites r2 chunk_size with
        | .error e => .error e
        | .ok (v, r3) => .ok ({ m with sprites := v }, r3)
      else if tag = tagDELS then
        match read_delta_store r2 chunk_size with
        | .error e => .error e
        | .ok (v, r3) => .ok ({ m with delta_store := v }, r3)
      else if tag = tagDELX then
        match read_deltas r2 chunk_size with
        | .error e => .error e
        | .ok (v, r3) => .ok ({ m with deltas := v }, r3)
      else if tag = tagFONB then
        match read_font_bases r2 chunk_size with
        | .error e => .error e
        | .ok (v, r3) => .ok ({ m with font_bases := v }, r3)
      else if tag = tagCARI then
        match read_cars r2 chunk_size with
        | .error e => .error e
        | .ok (v, r3) => .ok ({ m with cars := v }, r3)
      else if tag = tagOBJI then
        match read_map_objects r2 chunk_size with
        | .error e => .error e
        | .ok (v, r3) => .ok ({ m with map_objects := v }, r3)
      else if tag = tagPSXT then .error .todoPsx
      else if tag = tagRECY then
        match read_recyclable_cars r2 chunk_size with
        | .error e => .error e
        | .ok (v, r3) => .ok ({ m with recyclable_cars := v }, r3)
      else if tag = tagSPEC then
        match read_surface_tiles r2 chunk_size with
        | .error e => .error e
        | .ok (v, r3) => .ok ({ m with surfaces := v }, r3)
      else .ok (m, r2)

/-- The chunk loop (while !r.done()).  Fuel decreases each iteration; an
iteration always consumes at least the 8 header bytes, so with fuel
size+1 exhaustion is unreachable.  Errors carry the cursor of the chunk
header they were detected at. -/
def chunkLoop : Nat → Model → Reader → Except (StyleError × Nat) (Model × Reader)
  | 0, _, r => .error (.truncatedInput, r.cursor)
  | fuel + 1, m, r =>
    if r.done then .ok (m, r)
    else
      match dispatchChunk m r with
      | .error e => .error (e, r.cursor)
      | .ok (m1, r1) => chunkLoop fuel m1 r1

/-- read_styles (styles.cpp lines 480-729) from the point where the input
buffer is in memory: read the 4-byte magic (bounds-asserted), compare
against GBST (the silent early return on mismatch is the spec's
formatError; the cursor 4 it happened at is reported), skip the 2-byte
version with the unchecked skip, then loop over chunks.  On success
returns the model and the final cursor. -/
def read_styles (buf : List Nat) : Except (StyleError × Nat) (Model × Nat) :=
  match readByteList (Reader.ofList buf) 4 with
  | none => .error (.truncatedInput, 0)
  | some (magic, r1) =>
    if magic = magicGBST then
      match chunkLoop (buf.length + 1) Model.init (r1.skip 2) with
      | .error e => .error e
      | .ok (m, r2) => .ok (m, r2.cursor)
    else .error (.formatError, r1.cursor)

/-- Palette resolution of the sprite dump loop (styles.cpp lines 661-666):
the physical palette of sprite i is palettes[vtable[sprite-allocation
palette offset + i]]. -/
def spritePalette (vtable : Nat → Nat) (palettes : PalFun) (spriteBaseOffset i : Nat) : Nat → Color :=
  palettes (vtable (spriteBaseOffset + i))

/-- Pixel fill of the sprite dump loop (styles.cpp lines 668-676): for
y < height, x < width the buffer slot x + y*width gets
palette[store[offset%256 + x + (offset/256 + y)*256]].  buf0 is the
destination buffer (reused across sprites in the source). -/
def reconstructSprite (pal : Nat → Color) (store : Nat → Nat) (s : Sprite) (buf0 : PixBuf) : PixBuf :=
  rowsLoop s.width
    (fun y x => pal (store (s.offset % 256 + x + (s.offset / 256 + y) * 256)))
    0 s.height buf0

/-- The while loop applying the patch records of one delta frame
(styles.cpp lines 704-720): each record is {offset u16 LE, length u8,
length raw bytes} read straight out of the delta store at store offset
so; the raster position first advances by offset, the run is written at
(position%256, position/256) with row stride width, then the position
advances by length.  Returns the patched buffer and the store offset
after the consumed records.  Each iteration accounts at least 3 bytes so
fuel size+1 can never run out. -/
def deltaLoop (pal : Nat → Color) (ds : Nat → Nat) (w : Nat) : Nat → Nat → Nat → Nat → Nat → PixBuf → PixBuf × Nat
  | 0, so, _, _, _, buf => (buf, so)
  | fuel + 1, so, bytes, size, position, buf =>
    if bytes < size then
      match u16At ds so, ds (so + 2) with
      | off, len =>
        match (position + off) % 256, (position + off) / 256 with
        | x, y =>
          deltaLoop pal ds w fuel (so + 3 + len) (bytes + 3 + len) size (position + off + len)
            (writeLoop (fun j => x + j + y * w) (fun j => pal (ds (so + 3 + j))) 0 len buf)
    else (buf, so)

/-- One derived delta frame (styles.cpp lines 698-720): a buffer of the
sprite dimensions freshly value-initialized to Color.zero - NOT a copy of
the base sprite - then patch records applied until the declared byte size
is consumed. -/
def applyDeltaFrame (pal : Nat → Color) (ds : Nat → Nat) (w so size : Nat) : PixBuf × Nat :=
  deltaLoop pal ds w (size + 1) so 0 size 0 (fun _ => Color.zero)

/-- Error projection of a full decode. -/
def stylesErr (buf : List Nat) : Option (StyleError × Nat) :=
  match read_styles buf with
  | .error e => some e
  | .ok _ => none

/-- Map-object list of a successful decode. -/
def stylesMapObjects (buf : List Nat) : Option (List MapObject) :=
  match read_styles buf with
  | .ok (m, _) => some m.map_objects
  | .error _ => none

/-- Number of decoded tiles of a successful decode. -/
def stylesTilesLength (buf : List Nat) : Option Nat :=
  match read_styles buf with
  | .ok (m, _) => some m.tiles.length
  | .error _ => none

/-- Final cursor of a successful decode. -/
def stylesFinalCursor (buf : List Nat) : Option Nat :=
  match read_styles buf with
  | .ok (_, c) => some c
  | .error _ => none

/-- Cursor after read_virtual_palette_table, when it succeeds. -/
def vptCursorAfter (r : Reader) (cs : Nat) : Option Nat :=
  match read_virtual_palette_table r cs with
  | .ok (_, r1) => some r1.cursor
  | .error _ => none

/-- Cursor after read_palette_bases, when it succeeds. -/
def pbCursorAfter (r : Reader) (cs : Nat) : Option Nat :=
  match read_palette_bases r cs with
  | .ok (_, r1) => some r1.cursor
  | .error _ => none

/-- Cursor after read_sprite_bases, when it succeeds. -/
def sbCursorAfter (r : Reader) (cs : Nat) : Option Nat :=
  match read_sprite_bases r cs with
  | .ok (_, r1) => some r1.cursor
  | .error _ => none

/-- Cursor after read_tiles (total: read_tiles never fails). -/
def tilesCursorAfter (r : Reader) (cs : Nat) : Nat :=
  (read_tiles r cs).2.cursor

/-- Cursor after a block copy (read_sprite_store / read_delta_store), when
it succeeds. -/
def blobCursorAfter (r : Reader) (cs : Nat) : Option Nat :=
  match readBlob r cs with
  | .ok (_, r1) => some r1.cursor
  | .error _ => none

/-- Cursor after read_sprites, when it succeeds. -/
def sprCursorAfter (r : Reader) (cs : Nat) : Option Nat :=
  match read_sprites r cs with
  | .ok (_, r1) => some r1.cursor
  | .error _ => none

/-- Cursor after read_map_objects, when it succeeds. -/
def moCursorAfter (r : Reader) (cs : Nat) : Option Nat :=
  match read_map_objects r cs with
  | .ok (_, r1) => some r1.cursor
  | .error _ => none

/-- Cursor after read_recyclable_cars, when it succeeds. -/
def recyCursorAfter (r : Reader) (cs : Nat) : Option Nat :=
  match read_recyclable_cars r cs with
  | .ok (_, r1) => some r1.cursor
  | .error _ => none

/-- Color of palette i at color index c after read_physical_palettes, when
it succeeds. -/
def ppalColorAt (r : Reader) (cs i c : Nat) : Option Color :=
  match read_physical_palettes r cs with
  | .ok ((f, _), _) => some (f i c)
  | .error _ => none

/-- Decoded palette allocation table of a successful read_palette_bases. -/
def pbProj (r : Reader) (cs : Nat) : Option PaletteBases :=
  match read_palette_bases r cs with
  | .ok (pb, _) => some pb
  | .error _ => none

/-- Decoded sprite allocation table of a successful read_sprite_bases. -/
def sbProj (r : Reader) (cs : Nat) : Option SpriteBases :=
  match read_sprite_bases r cs with
  | .ok (sb, _) => some sb
  | .error _ => none

/-- Decoded surface lists of a successful read_surface_tiles. -/
def surfProj (r : Reader) (cs : Nat) : Option (List (List Nat)) :=
  match read_surface_tiles r cs with
  | .ok (ss, _) => some ss
  | .error _ => none

/-- True when a tile-index list contains no zero sentinel value. -/
def noZeroList (l : List Nat) : Bool :=
  l.all (fun v => !(v == 0))

/-- True when none of the surface lists contains a zero value. -/
def noZeros (ss : List (List Nat)) : Bool :=
  ss.all noZeroList

/-- The allocation pairs of a PaletteBases record, in fixed category
order. -/
def pbListOf (pb : PaletteBases) : List AllocBase :=
  [pb.tile, pb.sprite, pb.car, pb.ped, pb.code, pb.map, pb.user, pb.font]

/-- The allocation pairs of a SpriteBases record, in fixed category
order. -/
def sbListOf (sb : SpriteBases) : List AllocBase :=
  [sb.car, sb.ped, sb.code, sb.map, sb.user, sb.font]

/-- The list of (offset, count) pairs is cumulative starting at a: each
offset equals the accumulator, which then grows by the count. -/
def cumulFrom : Nat → List AllocBase → Prop
  | _, [] => True
  | a, b :: rest => b.offset = a ∧ cumulFrom (a + b.count) rest

/-- Sum of the category counts. -/
def totalCount (l : List AllocBase) : Nat :=
  (l.map AllocBase.count).sum

/-- How many of the (offset, count) ranges contain index n. -/
def coverCount (l : List AllocBase) (n : Nat) : Nat :=
  l.countP (fun b => decide (b.offset ≤ n ∧ n < b.offset + b.count))

/-- Total palette count of a PaletteBases record. -/
def pbTotal (pb : PaletteBases) : Nat := totalCount (pbListOf pb)

/-- Total sprite count of a SpriteBases record. -/
def sbTotal (sb : SpriteBases) : Nat := totalCount (sbListOf sb)

/-- The all-zero default tile. -/
def tileDefault : Tile := ⟨fun _ => 0⟩

/-- Archive with a valid magic, version 0, one unknown chunk ZZZZ of
declared length 10 whose payload spells a complete OBJI chunk, followed by
nothing: used to exhibit the missing skip on unknown tags. -/
def c1Input : List Nat :=
  magicGBST ++ [0, 0] ++ [90, 90, 90, 90] ++ [10, 0, 0, 0] ++ tagOBJI ++ [2, 0, 0, 0] ++ [7, 9]

/-- Archive with a valid magic and a TILE chunk declaring 4096 payload
bytes while zero bytes remain. -/
def c2TileInput : List Nat :=
  magicGBST ++ [0, 0] ++ tagTILE ++ [0, 16, 0, 0]

/-- Archive with a valid magic and a RECY chunk of declared length 2 whose
first byte is the 255 sentinel. -/
def c7RecyInput : List Nat :=
  magicGBST ++ [0, 0] ++ tagRECY ++ [2, 0, 0, 0] ++ [255, 0]

/-- A 4-byte input whose magic is not GBST. -/
def c8Input : List Nat := [0, 0, 0, 0]

/-- A 16-byte palette-allocation chunk with counts 40000, 40000, 0, 0, 0,
0, 0, 0 (40000 = 0x9C40, little-endian 64, 156): the cumulative sum
overflows the uint16_t accumulator. -/
def c9Bytes : List Nat := [64, 156, 64, 156, 0, 0, 0, 0, 0, 0, 0, 0, 0, 0, 0, 0]

/-- The table the code decodes from c9Bytes: the car-remap offset wrapped
to (40000 + 40000) mod 65536 = 14464. -/
def c9Expected : PaletteBases :=
  ⟨⟨0, 40000⟩, ⟨40000, 40000⟩, ⟨14464, 0⟩, ⟨14464, 0⟩,
   ⟨14464, 0⟩, ⟨14464, 0⟩, ⟨14464, 0⟩, ⟨14464, 0⟩⟩

/-- A 16-byte palette-allocation chunk whose eight counts are all 1. -/
def c9wPB : List Nat := [1, 0, 1, 0, 1, 0, 1, 0, 1, 0, 1, 0, 1, 0, 1, 0]

/-- A 12-byte sprite-allocation chunk whose six counts are all 1. -/
def c9wSB : List Nat := [1, 0, 1, 0, 1, 0, 1, 0, 1, 0, 1, 0]

/-- The palette table decoded from c9wPB: offsets 0..7, counts 1. -/
def c9wPBTable : PaletteBases :=
  ⟨⟨0, 1⟩, ⟨1, 1⟩, ⟨2, 1⟩, ⟨3, 1⟩, ⟨4, 1⟩, ⟨5, 1⟩, ⟨6, 1⟩, ⟨7, 1⟩⟩

/-- The sprite table decoded from c9wSB: offsets 0..5, counts 1. -/
def c9wSBTable : SpriteBases :=
  ⟨⟨0, 1⟩, ⟨1, 1⟩, ⟨2, 1⟩, ⟨3, 1⟩, ⟨4, 1⟩, ⟨5, 1⟩⟩

/-- An all-zero input buffer of exactly one physical-palette page. -/
def c4Reader : Reader := ⟨fun _ => 0, 65536, 0⟩

/-- An all-zero input buffer large enough for every fixed-layout chunk. -/
def c7Reader : Reader := ⟨fun _ => 0, 32768, 0⟩

/-- A constant palette mapping every index to an opaque red. -/
def c3Pal : Nat → Color := fun _ => ⟨250, 0, 0, 255⟩

/-- A constant sprite/delta store whose every byte is 5. -/
def c3Store : Nat → Nat := fun _ => 5

/-- A 1x1 sprite at store offset 0. -/
def c3Sprite : Sprite := ⟨0, 1, 1⟩

/-- An all-zero pixel buffer. -/
def zeroPixBuf : PixBuf := fun _ => Color.zero

/-- A virtual palette table resolving everything to physical palette 3. -/
def c5Vt : Nat → Nat := fun _ => 3

/-- A palette collection encoding its two indices in the color channels. -/
def c5Pals : PalFun := fun i c => ⟨i, c, 0, 255⟩

/-- A sprite store whose byte at position p is p mod 251. -/
def c5Store : Nat → Nat := fun p => p % 251

/-- The 4x4 sprite record at store offset 0 from the spec's example. -/
def c5Sprite : Sprite := ⟨0, 4, 4⟩

/-- A tiny input buffer for the tile indexing witness. -/
def c6Reader : Reader := Reader.ofList [1, 2, 3]

/-- A 4-byte surface chunk: one tile index 5, then the 0 terminator. -/
def c10Reader : Reader := Reader.ofList [5, 0, 0, 0]

/-- The 4 magic bytes the decoder reads from the start of a buffer (the
exact list readByteList produces at cursor 0). -/
def magicOf (buf : List Nat) : List Nat :=
  (List.range 4).map (fun i => bufOfList buf (0 + i))

/-! Helper lemmas about the reader primitives and write loops. -/

theorem readByteList_cursor {r : Reader} {n : Nat} {bs : List Nat} {r1 : Reader}
    (h : readByteList r n = some (bs, r1)) :
    r1.data = r.data ∧ r1.size = r.size ∧ r1.cursor = r.cursor + n := by
  unfold readByteList at h
  split at h
  · simp only [Option.some.injEq, Prod.mk.injEq] at h
    obtain ⟨-, h2⟩ := h
    subst h2
    exact ⟨rfl, rfl, rfl⟩
  · exact absurd h (by simp)

theorem readU16List_cursor {r : Reader} {n : Nat} {ws : List Nat} {r1 : Reader}
    (h : readU16List r n = some (ws, r1)) :
    r1.data = r.data ∧ r1.size = r.size ∧ r1.cursor = r.cursor + 2 * n := by
  unfold readU16List at h
  split at h
  · simp only [Option.some.injEq, Prod.mk.injEq] at h
    obtain ⟨-, h2⟩ := h
    subst h2
    exact ⟨rfl, rfl, rfl⟩
  · exact absurd h (by simp)

theorem writeLoop_ne {α : Type} (key : Nat → Nat) (val : Nat → α) :
    ∀ (n i : Nat) (buf : Nat → α) (k : Nat),
      (∀ j, i ≤ j → j < i + n → key j ≠ k) →
      writeLoop key val i n buf k = buf k := by
  intro n
  induction n with
  | zero => intro i buf k _; rfl
  | succ n ih =>
    intro i buf k h
    rw [writeLoop]
    rw [ih (i + 1) _ k (fun j hj1 hj2 => h j (by omega) (by omega))]
    exact Function.update_noteq (Ne.symm (h i le_rfl (by omega))) _ _

theorem writeLoop_eq {α : Type} (key : Nat → Nat) (val : Nat → α) :
    ∀ (n i : Nat) (buf : Nat → α) (j : Nat),
      i ≤ j → j < i + n →
      (∀ j1, i ≤ j1 → j1 < i + n → key j1 = key j → j1 = j) →
      writeLoop key val i n buf (key j) = val j := by
  intro n
  induction n with
  | zero => intro i buf j h1 h2 _; omega
  | succ n ih =>
    intro i buf j h1 h2 hinj
    rw [writeLoop]
    by_cases hj : j = i
    · subst hj
      rw [writeLoop_ne key val n (j + 1) _ (key j)
        (fun j1 hj1 hj2 hkey => by have := hinj j1 (by omega) (by omega) hkey; omega)]
      exact Function.update_same _ _ _
    · exact ih (i + 1) _ j (by omega) (by omega)
        (fun j1 h1a h2a hk => hinj j1 (by omega) (by omega) hk)

theorem slot_inj {w x x1 y y1 : Nat} (hx : x < w) (hx1 : x1 < w)
    (h : x + y * w = x1 + y1 * w) : x = x1 ∧ y = y1 := by
  have hxe : x = x1 := by
    have e1 : (x + y * w) % w = x := by
      rw [Nat.add_mul_mod_self_right]; exact Nat.mod_eq_of_lt hx
    have e2 : (x1 + y1 * w) % w = x1 := by
      rw [Nat.add_mul_mod_self_right]; exact Nat.mod_eq_of_lt hx1
    rw [← e1, h, e2]
  refine ⟨hxe, ?_⟩
  subst hxe
  have hw : 0 < w := by omega
  have : y * w = y1 * w := by omega
  exact Nat.eq_of_mul_eq_mul_right hw this

theorem rowsLoop_ne {α : Type} (w : Nat) (val : Nat → Nat → α) :
    ∀ (n y0 : Nat) (buf : Nat → α) (k : Nat),
      (∀ x y, x < w → y0 ≤ y → y < y0 + n → x + y * w ≠ k) →
      rowsLoop w val y0 n buf k = buf k := by
  intro n
  induction n with
  | zero => intro y0 buf k _; rfl
  | succ n ih =>
    intro y0 buf k h
    rw [rowsLoop]
    rw [ih (y0 + 1) _ k (fun x y hx hy1 hy2 => h x y hx (by omega) (by omega))]
    exact writeLoop_ne _ _ w 0 buf k (fun j hj1 hj2 => h j y0 (by omega) le_rfl (by omega))

theorem rowsLoop_eq {α : Type} (w : Nat) (val : Nat → Nat → α) :
    ∀ (n y0 : Nat) (buf : Nat → α) (x y : Nat),
      x < w → y0 ≤ y → y < y0 + n →
      rowsLoop w val y0 n buf (x + y * w) = val y x := by
  intro n
  induction n with
  | zero => intro y0 buf x y _ h1 h2; omega
  | succ n ih =>
    intro y0 buf x y hx hy1 hy2
    rw [rowsLoop]
    by_cases hyy : y = y0
    · subst hyy
      rw [rowsLoop_ne w val n (y + 1) _ (x + y * w)
        (fun x1 y1 hx1 hy1a hy2a hk => by
          obtain ⟨hxe, hye⟩ := slot_inj hx1 hx hk
          omega)]
      exact writeLoop_eq (fun x1 => x1 + y * w) (val y) w 0 _ x (by omega) (by omega)
        (fun j1 h1a h2a hk => Nat.add_right_cancel hk)
    · exact ih (y0 + 1) _ x y hx (by omega) (by omega)

theorem tilesList_length (d : Nat → Nat) (c0 : Nat) :
    ∀ (n i : Nat), (tilesList d c0 i n).length = n := by
  intro n
  induction n with
  | zero => intro i; rfl
  | succ n ih => intro i; simp [tilesList, ih]

theorem tilesList_getD (d : Nat → Nat) (c0 : Nat) :
    ∀ (n i t : Nat), t < n →
      (tilesList d c0 i n).getD t tileDefault = mkTile d c0 (i + t) := by
  intro n
  induction n with
  | zero => intro i t h; omega
  | succ n ih =>
    intro i t h
    cases t with
    | zero => simp [tilesList]
    | succ t =>
      rw [tilesList]
      rw [List.getD_cons_succ]
      rw [ih (i + 1) t (by omega)]
      congr 1
      omega

theorem mkTile_pixel (d : Nat → Nat) (c0 i x y : Nat) (hx : x < 64) (hy : y < 64) :
    (mkTile d c0 i).colors (x + y * 64) =
      d (c0 + (x + (i % 4) * 64 + (y + (i / 4) * 64) * 256)) := by
  show rowsLoop 64 (fun yy xx => d (c0 + (xx + (i % 4) * 64 + (yy + (i / 4) * 64) * 256)))
    0 64 (fun _ => 0) (x + y * 64) = _
  exact rowsLoop_eq 64 _ 64 0 _ x y hx (by omega) (by omega)

/-! Claim theorems. -/

/-- C6: for every tiles chunk and every tile index i < chunk_size/4096,
the output is a flat list of chunk_size/4096 tiles ordered by tile index,
and pixel (x,y) of tile i equals the page-buffer byte at
x + (i%4)*64 + (y + (i/4)*64)*256. -/
theorem c6_tiles_indexing (r : Reader) (cs i x y : Nat)
    (hi : i < cs / 4096) (hx : x < 64) (hy : y < 64) :
    (read_tiles r cs).1.length = cs / 4096 ∧
    ((read_tiles r cs).1.getD i tileDefault).colors (x + y * 64) =
      r.data (r.cursor + (x + (i % 4) * 64 + (y + (i / 4) * 64) * 256)) := by
  constructor
  · exact tilesList_length r.data r.cursor (cs / 4096) 0
  · show ((tilesList r.data r.cursor 0 (cs / 4096)).getD i tileDefault).colors (x + y * 64) = _
    rw [tilesList_getD r.data r.cursor (cs / 4096) 0 i hi]
    rw [Nat.zero_add]
    exact mkTile_pixel r.data r.cursor i x y hx hy

/-- Witness for c6_tiles_indexing: on the concrete buffer [1,2,3] with a
4096-byte chunk, tile 0 pixel (1,0) is the page-buffer byte at position 1,
namely 2. -/
theorem c6_tiles_indexing_witness :
    (read_tiles c6Reader 4096).1.length = 1 ∧
    ((read_tiles c6Reader 4096).1.getD 0 tileDefault).colors 1 = 2 := by
  have h := c6_tiles_indexing c6Reader 4096 0 1 0 (by decide) (by decide) (by decide)
  exact ⟨h.1, h.2.trans (by decide)⟩

/-- C5: sprite reconstruction resolves the palette as
virtual_table[sprite palette-allocation offset + i], and pixel (x,y) of
sprite i (x < width, y < height) is that palette's color for the store
byte at (offset%256 + x) + (offset/256 + y)*256. -/
theorem c5_sprite_reconstruction (vt : Nat → Nat) (pals : PalFun) (off i : Nat)
    (store : Nat → Nat) (s : Sprite) (buf0 : PixBuf) (x y : Nat)
    (hx : x < s.width) (hy : y < s.height) :
    reconstructSprite (spritePalette vt pals off i) store s buf0 (x + y * s.width) =
      pals (vt (off + i)) (store (s.offset % 256 + x + (s.offset / 256 + y) * 256)) := by
  show rowsLoop s.width
    (fun yy xx => spritePalette vt pals off i
      (store (s.offset % 256 + xx + (s.offset / 256 + yy) * 256)))
    0 s.height buf0 (x + y * s.width) = _
  rw [rowsLoop_eq s.width _ s.height 0 buf0 x y hx (by omega) (by omega)]
  rfl

/-- Witness for c5_sprite_reconstruction: the record {offset 0, width 4,
height 4} of the spec's example; pixel (1,2) reads store position
1 + 2*256 = 513 (the first 4x4 block with row stride 256), and
513 mod 251 = 11 maps through palette 3. -/
theorem c5_sprite_reconstruction_witness :
    reconstructSprite (spritePalette c5Vt c5Pals 0 0) c5Store c5Sprite zeroPixBuf 9 =
      ⟨3, 11, 0, 255⟩ := by
  have h := c5_sprite_reconstruction c5Vt c5Pals 0 0 c5Store c5Sprite zeroPixBuf 1 2
    (by decide) (by decide)
  exact h.trans (by decide)

/-- C3 counterexample: a delta frame whose declared byte-length covers zero
patch records is NOT pixel-identical to the base sprite's reconstructed
bitmap: at pixel 0 of the 1x1 sprite the frame holds the zero color while
the base sprite holds an opaque palette color. -/
theorem c3_counterexample :
    (applyDeltaFrame c3Pal c3Store 1 0 0).1 0 ≠
      reconstructSprite c3Pal c3Store c3Sprite zeroPixBuf 0 := by decide

/-- C3 (amended): reconstruction initializes each derived frame as an
all-zero buffer (the value-initialized Color{} = {0,0,0,0}), not as a copy
of the base sprite's bitmap; a frame whose declared byte-length covers
zero patch records has every pixel equal to the zero color and consumes no
delta-store bytes. -/
theorem c3_amended (pal : Nat → Color) (ds : Nat → Nat) (w so k : Nat) :
    (applyDeltaFrame pal ds w so 0).1 k = Color.zero ∧
    (applyDeltaFrame pal ds w so 0).2 = so :=
  ⟨rfl, rfl⟩

/-- C1: evaluating the chunk loop on c1Input shows the unknown ZZZZ chunk's
declared length is NOT skipped: the decoder resumes at the payload and
parses the OBJI chunk embedded inside it, so the decode ends successfully
with a map-object list taken from bytes belonging to the unknown chunk.
Under the claimed skip-by-length behavior the payload would be jumped over
and the map-object list would stay empty. -/
theorem c1_missing_skip_eval :
    stylesErr c1Input = none ∧ stylesMapObjects c1Input = some [⟨7, 9⟩] := by
  exact ⟨by decide, by decide⟩

/-- C2: Reader::skip performs no bounds check - skipping 100 bytes of a
2-byte buffer just advances the cursor past the end - and the archive
c2TileInput, whose TILE chunk declares 4096 bytes with zero remaining,
decodes without any TruncatedInput error, producing one tile out of reads
beyond the buffer. -/
theorem c2_skip_unchecked_eval :
    ((Reader.ofList [0, 0]).skip 100).cursor = 100 ∧
    (Reader.ofList [0, 0]).size = 2 ∧
    stylesErr c2TileInput = none ∧
    stylesTilesLength c2TileInput = some 1 := by
  exact ⟨by decide, by decide, by decide, by decide⟩

/-- C7 counterexample: the recyclable-list handler dispatched on the chunk
[255, 0] of declared length 2 consumes exactly 1 byte, not the declared 2;
in the archive c7RecyInput the cursor is consequently left misaligned and
the decode aborts with TruncatedInput at cursor 15. -/
theorem c7_counterexample :
    recyCursorAfter (Reader.ofList [255, 0]) 2 = some 1 ∧
    (1 : Nat) ≠ 2 ∧
    stylesErr c7RecyInput = some (.truncatedInput, 15) := by
  exact ⟨by decide, by decide, by decide⟩

/-- C9 counterexample: on the 16-byte chunk c9Bytes with counts 40000 and
40000 the decoded car-remap offset is 14464 = (40000 + 40000) mod 65536,
not the sum 80000 of the previous offset and count, so the decoded ranges
do not satisfy offset_next = offset + count and do not partition the index
space. -/
theorem c9_counterexample :
    pbProj (Reader.ofList c9Bytes) 16 = some c9Expected ∧
    c9Expected.car.offset ≠ c9Expected.sprite.offset + c9Expected.sprite.count := by
  exact ⟨by decide, by decide⟩

/-- C8: for every input buffer of at least 4 bytes whose first 4 bytes are
not the GBST magic, the decode fails immediately with formatError at
cursor 4: no model is returned and no version, chunk header or payload
byte is consumed past the magic. -/
theorem c8_bad_magic (buf : List Nat) (hlen : 4 ≤ buf.length)
    (hm : magicOf buf ≠ magicGBST) :
    read_styles buf = .error (.formatError, 4) := by
  have h4 : readByteList (Reader.ofList buf) 4 =
      some (magicOf buf, ⟨bufOfList buf, buf.length, 0 + 4⟩) := by
    unfold readByteList Reader.ofList magicOf
    rw [if_pos (by simpa using hlen)]
  unfold read_styles
  rw [h4]
  simp only [if_neg hm]

/-- Witness for c8_bad_magic: the all-zero 4-byte buffer c8Input fails with
formatError at cursor 4. -/
theorem c8_bad_magic_witness : read_styles c8Input = .error (.formatError, 4) :=
  c8_bad_magic c8Input (by decide) (by decide)

theorem surfInner_noZero :
    ∀ (fuel bytes cs : Nat) (r : Reader) (l : List Nat) (br : Nat × Reader),
      surfInner fuel bytes cs r = some (l, br) → noZeroList l = true := by
  intro fuel
  induction fuel with
  | zero =>
    intro bytes cs r l br h
    simp only [surfInner, Option.some.injEq, Prod.mk.injEq] at h
    rw [← h.1]
    rfl
  | succ fuel ih =>
    intro bytes cs r l br h
    rw [surfInner] at h
    split at h
    · split at h
      · exact absurd h (by simp)
      · rename_i v r1 hr
        split at h
        · simp only [Option.some.injEq, Prod.mk.injEq] at h
          rw [← h.1]
          rfl
        · rename_i hv
          split at h
          · exact absurd h (by simp)
          · rename_i l1 br1 hs
            simp only [Option.some.injEq, Prod.mk.injEq] at h
            obtain ⟨h1, -⟩ := h
            rw [← h1]
            have hrec := ih (bytes + 2) cs r1 l1 br1 hs
            simp only [noZeroList, List.all_cons, Bool.and_eq_true] at hrec ⊢
            exact ⟨by simpa using hv, hrec⟩
    · simp only [Option.some.injEq, Prod.mk.injEq] at h
      rw [← h.1]
      rfl

theorem surfOuter_inv (cs : Nat) :
    ∀ (fuel type : Nat) (res : List (List Nat)) (bytes : Nat) (r : Reader)
      (out : List (List Nat)) (r1 : Reader),
      surfOuter cs fuel type res bytes r = some (out, r1) →
      res.length = 9 → noZeros res = true →
      out.length = 9 ∧ noZeros out = true := by
  intro fuel
  induction fuel with
  | zero =>
    intro type res bytes r out r1 h h9 hz
    simp only [surfOuter, Option.some.injEq, Prod.mk.injEq] at h
    rw [← h.1]
    exact ⟨h9, hz⟩
  | succ fuel ih =>
    intro type res bytes r out r1 h h9 hz
    rw [surfOuter] at h
    split at h
    · split at h
      · exact absurd h (by simp)
      · rename_i tiles bytes1 r2 hs
        refine ih (type + 1) (res.set type tiles) bytes1 r2 out r1 h ?_ ?_
        · rw [List.length_set]; exact h9
        · have ht := surfInner_noZero (cs + 1) bytes cs r tiles (bytes1, r2) hs
          simp only [noZeros, List.all_eq_true] at hz ⊢
          intro x hx
          rcases List.mem_or_eq_of_mem_set hx with hmem | heq
          · exact hz x hmem
          · rw [heq]; exact ht
    · simp only [Option.some.injEq, Prod.mk.injEq] at h
      rw [← h.1]
      exact ⟨h9, hz⟩

/-- C10: every surface-behavior chunk of even length that decodes
successfully yields exactly 9 category lists - categories never reached by
the data stay empty - and no returned list contains the value 0 (the zero
sentinel terminates a category and is never stored). -/
theorem c10_surfaces (r : Reader) (cs : Nat) (ss : List (List Nat))
    (_heven : cs % 2 = 0) (h : surfProj r cs = some ss) :
    ss.length = 9 ∧ noZeros ss = true := by
  unfold surfProj at h
  cases h1 : read_surface_tiles r cs with
  | error e => rw [h1] at h; exact absurd h (by simp)
  | ok p =>
    rw [h1] at h
    obtain ⟨ss1, r1⟩ := p
    simp only [Option.some.injEq] at h
    subst h
    unfold read_surface_tiles at h1
    cases h2 : surfOuter cs 9 0 (List.replicate 9 []) 0 r with
    | none => rw [h2] at h1; exact absurd h1 (by simp)
    | some q =>
      rw [h2] at h1
      obtain ⟨out, r2⟩ := q
      simp only [Except.ok.injEq, Prod.mk.injEq] at h1
      obtain ⟨he, -⟩ := h1
      rw [← he]
      exact surfOuter_inv cs 9 0 (List.replicate 9 []) 0 r out r2 h2 (by simp) (by decide)

/-- Witness for c10_surfaces: the 4-byte chunk [5,0,0,0] (tile 5, then the
terminator) decodes to nine lists, the first [5], the rest empty, none
containing 0. -/
theorem c10_surfaces_witness :
    ([[5], [], [], [], [], [], [], [], []] : List (List Nat)).length = 9 ∧
    noZeros [[5], [], [], [], [], [], [], [], []] = true :=
  c10_surfaces c10Reader 4 [[5], [], [], [], [], [], [], [], []] (by decide) (by decide)

theorem spritesLoop_cursor :
    ∀ (n : Nat) (r : Reader), r.cursor + 8 * n ≤ r.size →
      ∃ l r1, spritesLoop n r = some (l, r1) ∧ r1.data = r.data ∧ r1.size = r.size ∧
        r1.cursor = r.cursor + 8 * n := by
  intro n
  induction n with
  | zero => intro r h; exact ⟨[], r, rfl, rfl, rfl, by omega⟩
  | succ n ih =>
    intro r h
    have hb : readByteList r 8 =
        some ((List.range 8).map (fun i => r.data (r.cursor + i)),
              { r with cursor := r.cursor + 8 }) := by
      unfold readByteList
      rw [if_pos (by omega)]
    obtain ⟨l, r1, hsl, hd, hs2, hc⟩ :=
      ih { r with cursor := r.cursor + 8 } (by show r.cursor + 8 + 8 * n ≤ r.size; omega)
    refine ⟨spriteOfBytes ((List.range 8).map (fun i => r.data (r.cursor + i))) :: l,
            r1, ?_, ?_, ?_, ?_⟩
    · simp only [spritesLoop, hb, hsl]
    · exact hd
    · exact hs2
    · rw [hc]; show r.cursor + 8 + 8 * n = r.cursor + 8 * (n + 1); omega

/-- C7 (amended): for every chunk dispatched to a fixed-layout or
block-copy handler - virtual palette table, palette allocation, sprite
allocation, tiles, sprite store, sprite records, delta store, map
objects - the handler consumes exactly the declared chunk length (so the
loop advances by exactly 8 plus the declared length for these chunks).
The self-delimited handlers (recyclable list, delta sets, cars, font
allocation, surface lists) are not bound by the declared length; the
recyclable-list handler in particular stops at its 255 sentinel. -/
theorem c7_amended :
    (∀ r : Reader, r.cursor + 32768 ≤ r.size →
      vptCursorAfter r 32768 = some (r.cursor + 32768)) ∧
    (∀ r : Reader, r.cursor + 16 ≤ r.size →
      pbCursorAfter r 16 = some (r.cursor + 16)) ∧
    (∀ r : Reader, r.cursor + 12 ≤ r.size →
      sbCursorAfter r 12 = some (r.cursor + 12)) ∧
    (∀ (r : Reader) (cs : Nat), tilesCursorAfter r cs = r.cursor + cs) ∧
    (∀ (r : Reader) (cs : Nat), r.cursor + cs ≤ r.size →
      blobCursorAfter r cs = some (r.cursor + cs)) ∧
    (∀ (r : Reader) (cs : Nat), cs % 8 = 0 → r.cursor + cs ≤ r.size →
      sprCursorAfter r cs = some (r.cursor + cs)) ∧
    (∀ (r : Reader) (cs : Nat), cs % 2 = 0 → r.cursor + cs ≤ r.size →
      moCursorAfter r cs = some (r.cursor + cs)) := by
  refine ⟨?_, ?_, ?_, ?_, ?_, ?_, ?_⟩
  · intro r h
    unfold vptCursorAfter read_virtual_palette_table
    rw [if_pos rfl, if_pos h]
  · intro r h
    unfold pbCursorAfter read_palette_bases
    rw [if_pos rfl]
    have hu : readU16List r 8 =
        some ((List.range 8).map (fun i => u16At r.data (r.cursor + 2 * i)),
              { r with cursor := r.cursor + 2 * 8 }) := by
      unfold readU16List
      rw [if_pos (by omega)]
    rw [hu]
  · intro r h
    unfold sbCursorAfter read_sprite_bases
    rw [if_pos rfl]
    have hu : readU16List r 6 =
        some ((List.range 6).map (fun i => u16At r.data (r.cursor + 2 * i)),
              { r with cursor := r.cursor + 2 * 6 }) := by
      unfold readU16List
      rw [if_pos (by omega)]
    rw [hu]
  · intro r cs
    rfl
  · intro r cs h
    unfold blobCursorAfter readBlob
    rw [if_pos h]
  · intro r cs h8 h
    obtain ⟨l, r1, hsl, -, -, hc⟩ := spritesLoop_cursor (cs / 8) r (by omega)
    unfold sprCursorAfter read_sprites
    rw [if_pos h8, hsl]
    show some r1.cursor = some (r.cursor + cs)
    rw [hc]
    congr 1
    omega
  · intro r cs h2 h
    unfold moCursorAfter read_map_objects
    rw [if_pos h2, if_pos (by omega)]
    show some (r.cursor + 2 * (cs / 2)) = some (r.cursor + cs)
    congr 1
    omega

/-- Witness for c7_amended: on the all-zero 32768-byte buffer every
covered handler consumes exactly its declared chunk length. -/
theorem c7_amended_witness :
    vptCursorAfter c7Reader 32768 = some 32768 ∧
    pbCursorAfter c7Reader 16 = some 16 ∧
    sbCursorAfter c7Reader 12 = some 12 ∧
    tilesCursorAfter c7Reader 4096 = 4096 ∧
    blobCursorAfter c7Reader 100 = some 100 ∧
    sprCursorAfter c7Reader 16 = some 16 ∧
    moCursorAfter c7Reader 6 = some 6 := by
  refine ⟨?_, ?_, ?_, ?_, ?_, ?_, ?_⟩
  · exact c7_amended.1 c7Reader (by decide)
  · exact c7_amended.2.1 c7Reader (by decide)
  · exact c7_amended.2.2.1 c7Reader (by decide)
  · exact c7_amended.2.2.2.1 c7Reader 4096
  · exact c7_amended.2.2.2.2.1 c7Reader 100 (by decide)
  · exact c7_amended.2.2.2.2.2.1 c7Reader 16 (by decide) (by decide)
  · exact c7_amended.2.2.2.2.2.2 c7Reader 6 (by decide) (by decide)

theorem basesFrom_length : ∀ (cs : List Nat) (off : Nat), (basesFrom off cs).length = cs.length := by
  intro cs
  induction cs with
  | nil => intro off; rfl
  | cons c t ih => intro off; simp [basesFrom, ih]

theorem basesFrom_counts : ∀ (cs : List Nat) (off : Nat),
    (basesFrom off cs).map AllocBase.count = cs := by
  intro cs
  induction cs with
  | nil => intro off; rfl
  | cons c t ih => intro off; simp [basesFrom, ih]

theorem basesFrom_cumulFrom : ∀ (cs : List Nat) (off : Nat), off + cs.sum < 65536 →
    cumulFrom off (basesFrom off cs) := by
  intro cs
  induction cs with
  | nil => intro off _; trivial
  | cons c t ih =>
    intro off h
    rw [List.sum_cons] at h
    have hm : (off + c) % 65536 = off + c := Nat.mod_eq_of_lt (by omega)
    simp only [basesFrom, cumulFrom]
    refine ⟨trivial, ?_⟩
    rw [hm]
    exact ih (off + c) (by omega)

theorem cumulFrom_cover : ∀ (l : List AllocBase) (a : Nat), cumulFrom a l →
    ∀ n : Nat, (a ≤ n → n < a + totalCount l → coverCount l n = 1) ∧
      ((n < a ∨ a + totalCount l ≤ n) → coverCount l n = 0) := by
  intro l
  induction l with
  | nil =>
    intro a _ n
    refine ⟨?_, ?_⟩
    · intro h1 h2
      simp only [totalCount, List.map_nil, List.sum_nil] at h2
      omega
    · intro _
      rfl
  | cons b t ih =>
    intro a hc n
    obtain ⟨hb, hrest⟩ := hc
    have iht := ih (a + b.count) hrest n
    have hcc : coverCount (b :: t) n =
        coverCount t n + (if b.offset ≤ n ∧ n < b.offset + b.count then 1 else 0) := by
      simp [coverCount, List.countP_cons]
    have htc : totalCount (b :: t) = b.count + totalCount t := by
      simp [totalCount]
    refine ⟨?_, ?_⟩
    · intro h1 h2
      by_cases hn : n < a + b.count
      · have hhead : (if b.offset ≤ n ∧ n < b.offset + b.count then 1 else 0) = 1 :=
          if_pos ⟨by omega, by omega⟩
        have ht0 : coverCount t n = 0 := iht.2 (Or.inl (by omega))
        omega
      · have hhead : (if b.offset ≤ n ∧ n < b.offset + b.count then 1 else 0) = 0 :=
          if_neg (by omega)
        have ht1 : coverCount t n = 1 := iht.1 (by omega) (by omega)
        omega
    · intro hor
      have hhead : (if b.offset ≤ n ∧ n < b.offset + b.count then 1 else 0) = 0 :=
        if_neg (by omega)
      have ht0 : coverCount t n = 0 := iht.2 (by omega)
      omega

theorem list8_getD (d : AllocBase) :
    ∀ l : List AllocBase, l.length = 8 →
      [l.getD 0 d, l.getD 1 d, l.getD 2 d, l.getD 3 d,
       l.getD 4 d, l.getD 5 d, l.getD 6 d, l.getD 7 d] = l := by
  intro l h
  rcases l with _ | ⟨a0, _ | ⟨a1, _ | ⟨a2, _ | ⟨a3, _ | ⟨a4, _ | ⟨a5, _ |
    ⟨a6, _ | ⟨a7, _ | ⟨a8, rest⟩⟩⟩⟩⟩⟩⟩⟩⟩ <;> simp_all [List.getD]

theorem list6_getD (d : AllocBase) :
    ∀ l : List AllocBase, l.length = 6 →
      [l.getD 0 d, l.getD 1 d, l.getD 2 d, l.getD 3 d, l.getD 4 d, l.getD 5 d] = l := by
  intro l h
  rcases l with _ | ⟨a0, _ | ⟨a1, _ | ⟨a2, _ | ⟨a3, _ | ⟨a4, _ | ⟨a5, _ |
    ⟨a6, rest⟩⟩⟩⟩⟩⟩⟩ <;> simp_all [List.getD]

/-- C9 (amended): for every palette-allocation chunk (8 u16 counts) and
sprite-allocation chunk (6 u16 counts), the decoded table pairs each
category with (offset, count) where the offsets accumulate modulo 2^16
(the uint16_t accumulator); whenever the total count fits in 16 bits the
offsets are the plain cumulative sums (offset_0 = 0,
offset_next = offset + count) and the ranges partition the index space
[0, total) with no gaps or overlaps: every n < total is covered by exactly
one range and every n >= total by none. -/
theorem c9_amended :
    (∀ (r : Reader) (cs : Nat) (pb : PaletteBases), pbProj r cs = some pb →
      pbTotal pb < 65536 →
      cumulFrom 0 (pbListOf pb) ∧
      (∀ n, n < pbTotal pb → coverCount (pbListOf pb) n = 1) ∧
      (∀ n, pbTotal pb ≤ n → coverCount (pbListOf pb) n = 0)) ∧
    (∀ (r : Reader) (cs : Nat) (sb : SpriteBases), sbProj r cs = some sb →
      sbTotal sb < 65536 →
      cumulFrom 0 (sbListOf sb) ∧
      (∀ n, n < sbTotal sb → coverCount (sbListOf sb) n = 1) ∧
      (∀ n, sbTotal sb ≤ n → coverCount (sbListOf sb) n = 0)) := by
  constructor
  · intro r cs pb h hlt
    unfold pbProj at h
    split at h
    · rename_i pb1 r1 hp
      simp only [Option.some.injEq] at h
      unfold read_palette_bases at hp
      split at hp
      · split at hp
        · exact absurd hp (by simp)
        · rename_i ws r2 heq
          simp only [Except.ok.injEq, Prod.mk.injEq] at hp
          obtain ⟨hpb, -⟩ := hp
          have hlen : ws.length = 8 := by
            unfold readU16List at heq
            split at heq
            · simp only [Option.some.injEq, Prod.mk.injEq] at heq
              rw [← heq.1]
              simp
            · exact absurd heq (by simp)
          have hl8 : (basesFrom 0 ws).length = 8 := by rw [basesFrom_length]; exact hlen
          have hre : pbListOf pb = basesFrom 0 ws := by
            rw [← h, ← hpb]
            unfold pbListOf
            exact list8_getD ⟨0, 0⟩ (basesFrom 0 ws) hl8
          have htot : pbTotal pb = ws.sum := by
            rw [pbTotal, hre]
            unfold totalCount
            rw [basesFrom_counts]
          have hcf : cumulFrom 0 (pbListOf pb) := by
            rw [hre]
            exact basesFrom_cumulFrom ws 0 (by omega)
          have htc : totalCount (pbListOf pb) = pbTotal pb := rfl
          refine ⟨hcf, ?_, ?_⟩
          · intro n hn
            exact (cumulFrom_cover (pbListOf pb) 0 hcf n).1 (by omega) (by omega)
          · intro n hn
            exact (cumulFrom_cover (pbListOf pb) 0 hcf n).2 (by omega)
      · exact absurd hp (by simp)
    · exact absurd h (by simp)
  · intro r cs sb h hlt
    unfold sbProj at h
    split at h
    · rename_i sb1 r1 hp
      simp only [Option.some.injEq] at h
      unfold read_sprite_bases at hp
      split at hp
      · split at hp
        · exact absurd hp (by simp)
        · rename_i ws r2 heq
          simp only [Except.ok.injEq, Prod.mk.injEq] at hp
          obtain ⟨hpb, -⟩ := hp
          have hlen : ws.length = 6 := by
            unfold readU16List at heq
            split at heq
            · simp only [Option.some.injEq, Prod.mk.injEq] at heq
              rw [← heq.1]
              simp
            · exact absurd heq (by simp)
          have hl6 : (basesFrom 0 ws).length = 6 := by rw [basesFrom_length]; exact hlen
          have hre : sbListOf sb = basesFrom 0 ws := by
            rw [← h, ← hpb]
            unfold sbListOf
            exact list6_getD ⟨0, 0⟩ (basesFrom 0 ws) hl6
          have htot : sbTotal sb = ws.sum := by
            rw [sbTotal, hre]
            unfold totalCount
            rw [basesFrom_counts]
          have hcf : cumulFrom 0 (sbListOf sb) := by
            rw [hre]
            exact basesFrom_cumulFrom ws 0 (by omega)
          have htc : totalCount (sbListOf sb) = sbTotal sb := rfl
          refine ⟨hcf, ?_, ?_⟩
          · intro n hn
            exact (cumulFrom_cover (sbListOf sb) 0 hcf n).1 (by omega) (by omega)
          · intro n hn
            exact (cumulFrom_cover (sbListOf sb) 0 hcf n).2 (by omega)
      · exact absurd hp (by simp)
    · exact absurd h (by simp)

/-- Witness for c9_amended: the all-ones allocation chunks decode to
cumulative tables whose unit ranges cover index 3 (palette side) and
index 2 (sprite side) exactly once and cover nothing at or beyond the
total. -/
theorem c9_amended_witness :
    cumulFrom 0 (pbListOf c9wPBTable) ∧ coverCount (pbListOf c9wPBTable) 3 = 1 ∧
    coverCount (pbListOf c9wPBTable) 8 = 0 ∧
    cumulFrom 0 (sbListOf c9wSBTable) ∧ coverCount (sbListOf c9wSBTable) 2 = 1 ∧
    coverCount (sbListOf c9wSBTable) 6 = 0 := by
  have h1 := c9_amended.1 (Reader.ofList c9wPB) 16 c9wPBTable (by decide) (by decide)
  have h2 := c9_amended.2 (Reader.ofList c9wSB) 12 c9wSBTable (by decide) (by decide)
  exact ⟨h1.1, h1.2.1 3 (by decide), h1.2.2 8 (by decide),
         h2.1, h2.2.1 2 (by decide), h2.2.2 6 (by decide)⟩

theorem ppalInner_spec (page color : Nat) :
    ∀ (fuel q : Nat) (f : PalFun) (d : Nat → Nat) (sz cur : Nat), cur + 4 * fuel ≤ sz →
      ∃ g, ppalInner page color q fuel f ⟨d, sz, cur⟩ = some (g, ⟨d, sz, cur + 4 * fuel⟩) ∧
        ∀ i c, g i c =
          if c = color ∧ page * 64 + q ≤ i ∧ i < page * 64 + q + fuel
          then convertColor (u32At d (cur + 4 * (i - (page * 64 + q))))
          else f i c := by
  intro fuel
  induction fuel with
  | zero =>
    intro q f d sz cur _
    refine ⟨f, rfl, ?_⟩
    intro i c
    rw [if_neg]
    rintro ⟨-, h1, h2⟩
    omega
  | succ fuel ih =>
    intro q f d sz cur h
    have hr : Reader.readU32 ⟨d, sz, cur⟩ = some (u32At d cur, ⟨d, sz, cur + 4⟩) := by
      show (if cur + 4 ≤ sz then some (u32At d cur, (⟨d, sz, cur + 4⟩ : Reader)) else none) =
        some (u32At d cur, (⟨d, sz, cur + 4⟩ : Reader))
      rw [if_pos (show cur + 4 ≤ sz by omega)]
    obtain ⟨g, hrec, hg⟩ :=
      ih (q + 1) (setPal f (page * 64 + q) color (convertColor (u32At d cur))) d sz (cur + 4)
        (by omega)
    have hstep : cur + 4 + 4 * fuel = cur + 4 * (fuel + 1) := by omega
    rw [hstep] at hrec
    refine ⟨g, ?_, ?_⟩
    · simp only [ppalInner, hr, hrec]
    · intro i c
      rw [hg i c]
      by_cases hcol : c = color
      · by_cases hi : page * 64 + q ≤ i ∧ i < page * 64 + q + (fuel + 1)
        · by_cases hi1 : page * 64 + (q + 1) ≤ i
          · rw [if_pos ⟨hcol, hi1, by omega⟩]
            rw [if_pos ⟨hcol, hi.1, hi.2⟩]
            have harg : cur + 4 + 4 * (i - (page * 64 + (q + 1))) =
                cur + 4 * (i - (page * 64 + q)) := by omega
            rw [harg]
          · rw [if_neg (by rintro ⟨-, ha, -⟩; omega)]
            unfold setPal
            rw [if_pos ⟨by omega, hcol⟩]
            rw [if_pos ⟨hcol, hi.1, hi.2⟩]
            have harg : cur + 4 * (i - (page * 64 + q)) = cur := by omega
            rw [harg]
        · rw [if_neg (by rintro ⟨-, h1, h2⟩; exact hi ⟨by omega, by omega⟩)]
          unfold setPal
          rw [if_neg (by rintro ⟨h1, -⟩; exact hi ⟨by omega, by omega⟩)]
          rw [if_neg (by rintro ⟨-, h1, h2⟩; exact hi ⟨h1, h2⟩)]
      · rw [if_neg (by rintro ⟨h1, -⟩; exact hcol h1)]
        unfold setPal
        rw [if_neg (by rintro ⟨-, h1⟩; exact hcol h1)]
        rw [if_neg (by rintro ⟨h1, -⟩; exact hcol h1)]

theorem ppalColors_spec (page : Nat) :
    ∀ (fuel color0 : Nat) (f : PalFun) (d : Nat → Nat) (sz cur : Nat),
      cur + 256 * fuel ≤ sz →
      ∃ g, ppalColors page color0 fuel f ⟨d, sz, cur⟩ = some (g, ⟨d, sz, cur + 256 * fuel⟩) ∧
        ∀ i c, g i c =
          if color0 ≤ c ∧ c < color0 + fuel ∧ page * 64 ≤ i ∧ i < page * 64 + 64
          then convertColor (u32At d (cur + 256 * (c - color0) + 4 * (i - page * 64)))
          else f i c := by
  intro fuel
  induction fuel with
  | zero =>
    intro color0 f d sz cur _
    refine ⟨f, rfl, ?_⟩
    intro i c
    rw [if_neg]
    rintro ⟨h1, h2, -⟩
    omega
  | succ fuel ih =>
    intro color0 f d sz cur h
    obtain ⟨g1, hrun1, hg1⟩ := ppalInner_spec page color0 64 0 f d sz cur (by omega)
    have h256 : cur + 4 * 64 = cur + 256 := by omega
    rw [h256] at hrun1
    obtain ⟨g, hrun2, hg2⟩ := ih (color0 + 1) g1 d sz (cur + 256) (by omega)
    have hstep : cur + 256 + 256 * fuel = cur + 256 * (fuel + 1) := by omega
    rw [hstep] at hrun2
    refine ⟨g, ?_, ?_⟩
    · simp only [ppalColors, hrun1, hrun2]
    · intro i c
      rw [hg2 i c]
      by_cases hmain : color0 ≤ c ∧ c < color0 + (fuel + 1) ∧ page * 64 ≤ i ∧ i < page * 64 + 64
      · obtain ⟨hm1, hm2, hm3, hm4⟩ := hmain
        by_cases hc1 : color0 + 1 ≤ c
        · rw [if_pos ⟨hc1, by omega, hm3, hm4⟩]
          rw [if_pos ⟨hm1, hm2, hm3, hm4⟩]
          have harg : cur + 256 + 256 * (c - (color0 + 1)) + 4 * (i - page * 64) =
              cur + 256 * (c - color0) + 4 * (i - page * 64) := by omega
          rw [harg]
        · rw [if_neg (by rintro ⟨ha, -, -, -⟩; omega)]
          rw [hg1 i c]
          rw [if_pos ⟨by omega, by omega, by omega⟩]
          rw [if_pos ⟨hm1, hm2, hm3, hm4⟩]
          have harg : cur + 4 * (i - (page * 64 + 0)) =
              cur + 256 * (c - color0) + 4 * (i - page * 64) := by omega
          rw [harg]
      · rw [if_neg (by rintro ⟨h1, h2, h3, h4⟩; exact hmain ⟨by omega, by omega, h3, h4⟩)]
        rw [hg1 i c]
        rw [if_neg (by rintro ⟨h1, h2, h3⟩; exact hmain ⟨by omega, by omega, by omega, by omega⟩)]
        rw [if_neg hmain]

theorem ppalPages_spec :
    ∀ (fuel page0 : Nat) (f : PalFun) (d : Nat → Nat) (sz cur : Nat),
      cur + 65536 * fuel ≤ sz →
      ∃ g, ppalPages page0 fuel f ⟨d, sz, cur⟩ = some (g, ⟨d, sz, cur + 65536 * fuel⟩) ∧
        ∀ i c, g i c =
          if c < 256 ∧ page0 * 64 ≤ i ∧ i < (page0 + fuel) * 64
          then convertColor (u32At d
            (cur + 65536 * (i / 64 - page0) + 256 * c + 4 * (i % 64)))
          else f i c := by
  intro fuel
  induction fuel with
  | zero =>
    intro page0 f d sz cur _
    refine ⟨f, rfl, ?_⟩
    intro i c
    rw [if_neg]
    rintro ⟨-, h1, h2⟩
    omega
  | succ fuel ih =>
    intro page0 f d sz cur h
    obtain ⟨g1, hrun1, hg1⟩ := ppalColors_spec page0 256 0 f d sz cur (by omega)
    have h65536 : cur + 256 * 256 = cur + 65536 := by omega
    rw [h65536] at hrun1
    obtain ⟨g, hrun2, hg2⟩ := ih (page0 + 1) g1 d sz (cur + 65536) (by omega)
    have hstep : cur + 65536 + 65536 * fuel = cur + 65536 * (fuel + 1) := by omega
    rw [hstep] at hrun2
    refine ⟨g, ?_, ?_⟩
    · simp only [ppalPages, hrun1, hrun2]
    · intro i c
      rw [hg2 i c]
      by_cases hmain : c < 256 ∧ page0 * 64 ≤ i ∧ i < (page0 + (fuel + 1)) * 64
      · obtain ⟨hm1, hm2, hm3⟩ := hmain
        by_cases hi1 : (page0 + 1) * 64 ≤ i
        · rw [if_pos ⟨hm1, hi1, by omega⟩]
          rw [if_pos ⟨hm1, hm2, hm3⟩]
          have harg : cur + 65536 + 65536 * (i / 64 - (page0 + 1)) + 256 * c + 4 * (i % 64) =
              cur + 65536 * (i / 64 - page0) + 256 * c + 4 * (i % 64) := by omega
          rw [harg]
        · rw [if_neg (by rintro ⟨-, ha, -⟩; omega)]
          rw [hg1 i c]
          rw [if_pos ⟨by omega, by omega, hm2, by omega⟩]
          rw [if_pos ⟨hm1, hm2, hm3⟩]
          have harg : cur + 256 * (c - 0) + 4 * (i - page0 * 64) =
              cur + 65536 * (i / 64 - page0) + 256 * c + 4 * (i % 64) := by omega
          rw [harg]
      · rw [if_neg (by rintro ⟨h1, h2, h3⟩; exact hmain ⟨h1, by omega, by omega⟩)]
        rw [hg1 i c]
        rw [if_neg (by rintro ⟨-, h2, h3, h4⟩; exact hmain ⟨by omega, by omega, by omega⟩)]
        rw [if_neg hmain]

/-- C4: for every physical-palette chunk whose length is a multiple of
1024 and fits in the remaining input, the decoder deinterleaves in loop
order (page, color, palette): the raw little-endian 32-bit word at word
position page*16384 + c*64 + q becomes the color of palette page*64+q at
color index c, with red from bits 16-23, green from bits 8-15, blue from
bits 0-7, and alpha forced to 0xff (convertColor always sets alpha 255). -/
theorem c4_palette_interleave (r : Reader) (cs page q c : Nat)
    (h1 : cs % 1024 = 0) (h2 : r.cursor + cs ≤ r.size)
    (hp : page < cs / 1024 / 64) (hq : q < 64) (hc : c < 256) :
    ppalColorAt r cs (page * 64 + q) c =
      some (convertColor (u32At r.data (r.cursor + 4 * (page * 16384 + c * 64 + q)))) := by
  obtain ⟨d, sz, cur⟩ := r
  have h2a : cur + cs ≤ sz := h2
  show ppalColorAt ⟨d, sz, cur⟩ cs (page * 64 + q) c =
    some (convertColor (u32At d (cur + 4 * (page * 16384 + c * 64 + q))))
  have hdd : cs / 1024 / 64 = cs / 65536 := by
    rw [Nat.div_div_eq_div_mul]
  have hb2 : cs / 65536 * 65536 ≤ cs := Nat.div_mul_le_self cs 65536
  have hbound : cur + 65536 * (cs / 1024 / 64) ≤ sz := by
    rw [hdd]
    omega
  obtain ⟨g, hrun, hg⟩ :=
    ppalPages_spec (cs / 1024 / 64) 0 (fun _ _ => Color.zero) d sz cur hbound
  unfold ppalColorAt read_physical_palettes
  rw [if_pos h1, hrun]
  show some (g (page * 64 + q) c) = _
  rw [hg (page * 64 + q) c]
  rw [if_pos ⟨hc, by omega, by omega⟩]
  have harg : cur + 65536 * ((page * 64 + q) / 64 - 0) + 256 * c + 4 * ((page * 64 + q) % 64) =
      cur + 4 * (page * 16384 + c * 64 + q) := by omega
  rw [harg]

/-- Witness for c4_palette_interleave: on the all-zero one-page buffer the
color of palette 0 at color index 0 is the decoded zero word, an opaque
black. -/
theorem c4_palette_interleave_witness :
    ppalColorAt c4Reader 65536 0 0 = some ⟨0, 0, 0, 255⟩ := by
  have h := c4_palette_interleave c4Reader 65536 0 0 0
    (by decide) (by decide) (by decide) (by decide) (by decide)
  exact h.trans (by decide)
